import Mathlib

/-!
Formal model of `src/video_processor.py`: the caption scheduling algorithm
(`calculate_screen_display_time`), the per-frame caption display step
(`display_text_on_screen`), and the text-layout arithmetic of
`add_custom_text_to_center`, together with proofs about them.

Modelling conventions:
* Python integers are `Int`; Python floor division `//` is `Int.fdiv` and
  Python `%` is `Int.fmod` (both round toward negative infinity, matching
  Python's semantics).
* Python float division of two integers followed by `int(...)` (which
  truncates toward zero) is modelled as exact rational division followed by
  `pyint`; for the halves appearing in this program the float arithmetic is
  exact, so the rational model is faithful.
* A raised exception (`ZeroDivisionError`, `KeyError`, `IndexError`) is
  modelled as `none`.
* The Python dicts keyed by the contiguous caption indices `0 .. n-1` are
  modelled as lists indexed by position.
* The external drawing routine `cv2.putText` and the text-metrics facility
  `cv2.getTextSize` are external collaborators: the per-frame step is
  parametrised by an abstract annotation function, and the layout arithmetic
  is stated over an arbitrary list of measured line heights/widths.
-/

namespace VideoProcessor

/-- Index of the first occurrence of the maximum value of a list of integers.
This is the behaviour of `max(self.text_display_timer_on_screen,
key=self.text_display_timer_on_screen.get)` in line 105 of the source:
Python's `max` iterates the dict keys in insertion order (`0 .. n-1`) and
keeps the first key whose value is maximal. -/
def argmaxFirst : List Int → Nat
  | [] => 0
  | x :: xs =>
    match xs with
    | [] => 0
    | _ :: _ =>
      let j := argmaxFirst xs
      if x < xs.getD j 0 then j + 1 else 0

/-- `total_length` of line 93: `sum(len(string) for string in self.text_array)`. -/
def total_length (text_array : List String) : Int :=
  (text_array.map (fun s => (s.length : Int))).sum

/-- `quote_display_count` of line 95: `self.total_frame_count // total_length`. -/
def quote_display_count (total_frame_count : Int) (text_array : List String) : Int :=
  Int.fdiv total_frame_count (total_length text_array)

/-- `display_reminder_per_quote` of line 97:
`(self.total_frame_count % total_length) // len(self.text_array)`. -/
def display_reminder_per_quote (total_frame_count : Int) (text_array : List String) : Int :=
  Int.fdiv (Int.fmod total_frame_count (total_length text_array)) (text_array.length : Int)

/-- The dict comprehension of lines 102-103, as a list indexed by caption
index: `len(string) * quote_display_count + display_reminder_per_quote`. -/
def baseSchedule (total_frame_count : Int) (text_array : List String) : List Int :=
  text_array.map (fun s =>
    (s.length : Int) * quote_display_count total_frame_count text_array
      + display_reminder_per_quote total_frame_count text_array)

/-- `unused_frames` of lines 99-100. -/
def unused_frames (total_frame_count : Int) (text_array : List String) : Int :=
  total_frame_count - (quote_display_count total_frame_count text_array * total_length text_array
    + display_reminder_per_quote total_frame_count text_array * (text_array.length : Int))

/-- The schedule computed by `calculate_screen_display_time` (lines 89-108):
base schedule, then the unused frames are added to the first entry holding
the maximum value.  `none` models the `ZeroDivisionError` raised by line 95
when the total caption length is zero. -/
def computeSchedule (total_frame_count : Int) (text_array : List String) :
    Option (List Int) :=
  if total_length text_array = 0 then none
  else
    let base := baseSchedule total_frame_count text_array
    let k := argmaxFirst base
    some (base.set k (base.getD k 0 + unused_frames total_frame_count text_array))

/-- `video_properties` dictionary of the constructor. -/
structure VideoProperties where
  input_path : String
  output_path : String
  width : Int
  height : Int
deriving DecidableEq

/-- The mutable fields of a `VideoProcessor` object that the modelled methods
read or write (the cv2 capture/writer handles are external collaborators and
carry no modelled state). -/
structure VPState where
  video_properties : VideoProperties
  text_array : List String
  total_frame_count : Int
  text_display_timer_on_screen : List Int
  display_counter : Int
  display_index : Nat
deriving DecidableEq

/-- `calculate_screen_display_time` as a state transformer: on success it
stores the computed schedule in `text_display_timer_on_screen` and leaves
every other field unchanged; `none` models the `ZeroDivisionError`. -/
def calculate_screen_display_time (s : VPState) : Option VPState :=
  (computeSchedule s.total_frame_count s.text_array).map
    (fun t => { s with text_display_timer_on_screen := t })

/-- `display_text_on_screen` (lines 110-137), parametrised by the abstract
annotation routine (`add_custom_text_to_center` with the cv2 drawing calls).
The first lookup models line 121: Python evaluates
`self.text_display_timer_on_screen[self.display_index]` and raises `KeyError`
(modelled as `none`) when `display_index` is not a key of the schedule dict. -/
def display_text_on_screen {Frame : Type}
    (add_custom_text : Frame → String → Int → Int → Frame)
    (s : VPState) (resized_frame : Frame) : Option (VPState × Frame) :=
  (s.text_display_timer_on_screen[s.display_index]?).bind (fun t =>
    if s.display_counter < t then
      (s.text_array[s.display_index]?).map (fun txt =>
        ({ s with display_counter := s.display_counter + 1 },
          add_custom_text resized_frame txt s.video_properties.width
            s.video_properties.height))
    else
      some ({ s with
        display_counter := 0
        display_index :=
          (if s.display_index < s.text_array.length then s.display_index + 1
            else s.text_array.length) }, resized_frame))

/-- Python `int(...)` applied to a real number: truncation toward zero. -/
def pyint (q : ℚ) : Int := if 0 ≤ q then ⌊q⌋ else ⌈q⌉

/-- `x_position = int((image_width - text_width) / 2)` of line 75. -/
def x_position (image_width text_width : Int) : Int :=
  pyint (((image_width - text_width : Int) : ℚ) / 2)

/-- The initial `y_position` of lines 65-68, over the list of measured line
heights (one per line, `lineHeights.getD 0 0` being the first line's height
and `lineHeights.length` the number of lines):
`int((image_height + sum(heights)) / 2) - (heights[0] + line_spacing) * len(lines) / 2`.
Note that only the first division is wrapped in `int(...)`; the second stays
a float division, so the result is a rational. -/
def y_position_start (image_height : Int) (lineHeights : List Int)
    (line_spacing : Int) : ℚ :=
  ((pyint (((image_height + lineHeights.sum : Int) : ℚ) / 2) : Int) : ℚ)
    - (((lineHeights.getD 0 0 + line_spacing) * (lineHeights.length : Int) : Int) : ℚ) / 2

/-- The vertical coordinate actually passed to `cv2.putText` for the first
line (line 76): `int(y_position)`. -/
def y_draw_start (image_height : Int) (lineHeights : List Int)
    (line_spacing : Int) : Int :=
  pyint (y_position_start image_height lineHeights line_spacing)

end VideoProcessor

namespace VideoProcessor

/-! ### Helper lemmas -/

theorem argmaxFirst_cons_cons (x y : Int) (ys : List Int) :
    argmaxFirst (x :: y :: ys) =
      if x < (y :: ys).getD (argmaxFirst (y :: ys)) 0
      then argmaxFirst (y :: ys) + 1 else 0 := rfl

/-- The index returned by argmaxFirst is in range, its entry is a maximum of
the list, and every strictly earlier entry is strictly below it. -/
theorem argmaxFirst_spec (l : List Int) (h : l ≠ []) :
    argmaxFirst l < l.length ∧
      (∀ i, i < l.length → l.getD i 0 ≤ l.getD (argmaxFirst l) 0) ∧
      (∀ i, i < argmaxFirst l → l.getD i 0 < l.getD (argmaxFirst l) 0) := by
  induction l with
  | nil => exact absurd rfl h
  | cons x xs ih =>
    cases xs with
    | nil =>
      refine ⟨by simp [argmaxFirst], ?_, ?_⟩
      · intro i hi
        have : i = 0 := by simpa using Nat.lt_one_iff.mp (by simpa using hi)
        subst this
        simp [argmaxFirst]
      · intro i hi
        simp [argmaxFirst] at hi
    | cons y ys =>
      obtain ⟨ih1, ih2, ih3⟩ := ih (by simp)
      rw [argmaxFirst_cons_cons]
      by_cases hxy : x < (y :: ys).getD (argmaxFirst (y :: ys)) 0
      · rw [if_pos hxy]
        refine ⟨by simpa using ih1, ?_, ?_⟩
        · intro i hi
          cases i with
          | zero => simpa [List.getD_cons_succ] using le_of_lt hxy
          | succ i =>
            simp only [List.getD_cons_succ]
            exact ih2 i (by simpa using hi)
        · intro i hi
          cases i with
          | zero => simpa [List.getD_cons_succ] using hxy
          | succ i =>
            simp only [List.getD_cons_succ]
            exact ih3 i (by omega)
      · rw [if_neg hxy]
        push_neg at hxy
        refine ⟨by simp, ?_, ?_⟩
        · intro i hi
          cases i with
          | zero => simp
          | succ i =>
            simp only [List.getD_cons_succ, List.getD_cons_zero]
            exact le_trans (ih2 i (by simpa using hi)) hxy
        · intro i hi
          omega

theorem sum_map_mul_add (q r : Int) (l : List String) :
    (l.map (fun s => (s.length : Int) * q + r)).sum
      = q * (l.map (fun s => (s.length : Int))).sum + r * l.length := by
  induction l with
  | nil => simp
  | cons s ss ih =>
    simp only [List.map_cons, List.sum_cons, ih, List.length_cons]
    push_cast
    ring

/-- The base schedule sums to the accounted frames of lines 99-100. -/
theorem sum_baseSchedule (tf : Int) (ta : List String) :
    (baseSchedule tf ta).sum =
      quote_display_count tf ta * total_length ta
        + display_reminder_per_quote tf ta * (ta.length : Int) := by
  unfold baseSchedule
  rw [sum_map_mul_add]
  unfold total_length
  ring

theorem sum_set_getD_add (l : List Int) (k : Nat) (u : Int) (hk : k < l.length) :
    (l.set k (l.getD k 0 + u)).sum = l.sum + u := by
  induction l generalizing k with
  | nil => simp at hk
  | cons x xs ih =>
    cases k with
    | zero =>
      simp only [List.getD_cons_zero, List.set_cons_zero, List.sum_cons]
      ring
    | succ k =>
      simp only [List.getD_cons_succ, List.set_cons_succ, List.sum_cons]
      rw [ih k (by simpa using hk)]
      ring

theorem getD_set_self (l : List Int) (k : Nat) (a : Int) (hk : k < l.length) :
    (l.set k a).getD k 0 = a := by
  rw [List.getD_eq_getElem?_getD, List.getElem?_set, if_pos rfl, if_pos hk]
  rfl

theorem getD_set_ne (l : List Int) (k i : Nat) (a : Int) (h : k ≠ i) :
    (l.set k a).getD i 0 = l.getD i 0 := by
  rw [List.getD_eq_getElem?_getD, List.getElem?_set, if_neg h,
    ← List.getD_eq_getElem?_getD]

theorem getD_map_sched (q r : Int) (l : List String) (i : Nat) (hi : i < l.length) :
    (l.map (fun s => (s.length : Int) * q + r)).getD i 0
      = ((l.getD i "").length : Int) * q + r := by
  induction l generalizing i with
  | nil => simp at hi
  | cons s ss ih =>
    cases i with
    | zero => simp
    | succ i =>
      simp only [List.map_cons, List.getD_cons_succ]
      exact ih i (by simpa using hi)

/-- Entries of the base schedule in terms of caption lengths. -/
theorem getD_baseSchedule (tf : Int) (ta : List String) (i : Nat)
    (hi : i < ta.length) :
    (baseSchedule tf ta).getD i 0 =
      ((ta.getD i "").length : Int) * quote_display_count tf ta
        + display_reminder_per_quote tf ta := by
  unfold baseSchedule
  exact getD_map_sched _ _ _ _ hi

theorem length_baseSchedule (tf : Int) (ta : List String) :
    (baseSchedule tf ta).length = ta.length := by
  simp [baseSchedule]

/-- The unused frames of lines 99-100 are exactly the remainder of the
remainder pool modulo the caption count. -/
theorem unused_frames_eq (tf : Int) (ta : List String) :
    unused_frames tf ta =
      Int.fmod (Int.fmod tf (total_length ta)) (ta.length : Int) := by
  have h1 := Int.fdiv_add_fmod tf (total_length ta)
  have h2 := Int.fdiv_add_fmod (Int.fmod tf (total_length ta)) ((ta.length : Int))
  simp only [unused_frames, quote_display_count, display_reminder_per_quote]
  linear_combination - h1 - h2

theorem unused_frames_nonneg (tf : Int) (ta : List String)
    (htf : 0 ≤ tf) (hL : 0 < total_length ta) : 0 ≤ unused_frames tf ta := by
  rw [unused_frames_eq]
  exact Int.fmod_nonneg (Int.fmod_nonneg htf (le_of_lt hL)) (by positivity)

theorem text_array_ne_nil_of_total_length_pos (ta : List String)
    (hL : 0 < total_length ta) : ta ≠ [] := by
  intro h
  rw [h] at hL
  simp [total_length] at hL

theorem pyint_intCast (z : Int) : pyint ((z : Int) : ℚ) = z := by
  unfold pyint
  split
  · exact Int.floor_intCast z
  · exact Int.ceil_intCast z

/-- For a nonnegative integer numerator, Python int((a)/2) agrees with
floor division a // 2. -/
theorem pyint_nonneg_div_two (a : Int) (ha : 0 ≤ a) :
    pyint ((a : ℚ) / 2) = Int.fdiv a 2 := by
  have h0 : (0 : ℚ) ≤ (a : ℚ) / 2 := by positivity
  rw [pyint, if_pos h0]
  rw [show ((2 : ℚ)) = ((2 : ℕ) : ℚ) by norm_num, Rat.floor_intCast_div_natCast]
  rw [Int.fdiv_eq_ediv _ (by norm_num)]
  norm_num

/-! ### Claims -/

/-- C5: the scheduler on 100 frames and captions cat, elephant yields exactly
the schedule 27, 73, whose values sum to 100. -/
theorem C5_concrete_example :
    computeSchedule 100 ["cat", "elephant"] = some [27, 73] ∧
      ([27, 73] : List Int).sum = 100 := by
  constructor
  · rfl
  · decide

/-- C1: for every nonnegative total frame count and caption list of positive
total character length, the schedule is computed successfully, every value in
it is nonnegative, and the values sum to the total frame count exactly. -/
theorem C1_schedule_sum_invariant (total_frame_count : Int) (text_array : List String)
    (htf : 0 ≤ total_frame_count) (hL : 0 < total_length text_array) :
    ∃ sched, computeSchedule total_frame_count text_array = some sched ∧
      (∀ v ∈ sched, 0 ≤ v) ∧ sched.sum = total_frame_count := by
  have hne : total_length text_array ≠ 0 := ne_of_gt hL
  have hta : text_array ≠ [] := text_array_ne_nil_of_total_length_pos _ hL
  have hn : 0 < text_array.length := List.length_pos.2 hta
  have hbl : (baseSchedule total_frame_count text_array).length = text_array.length :=
    length_baseSchedule _ _
  have hbne : baseSchedule total_frame_count text_array ≠ [] := by
    intro h
    rw [h] at hbl
    simp at hbl
    omega
  obtain ⟨hk, hmax, -⟩ := argmaxFirst_spec _ hbne
  have hq0 : 0 ≤ quote_display_count total_frame_count text_array :=
    Int.fdiv_nonneg htf (le_of_lt hL)
  have hr0 : 0 ≤ display_reminder_per_quote total_frame_count text_array :=
    Int.fdiv_nonneg (Int.fmod_nonneg htf (le_of_lt hL)) (by positivity)
  have hu0 : 0 ≤ unused_frames total_frame_count text_array :=
    unused_frames_nonneg _ _ htf hL
  have hbase_nonneg : ∀ v ∈ baseSchedule total_frame_count text_array, 0 ≤ v := by
    intro v hv
    simp only [baseSchedule, List.mem_map] at hv
    obtain ⟨s, -, rfl⟩ := hv
    have : (0 : Int) ≤ (s.length : Int) := by positivity
    nlinarith
  refine ⟨(baseSchedule total_frame_count text_array).set
      (argmaxFirst (baseSchedule total_frame_count text_array))
      ((baseSchedule total_frame_count text_array).getD
        (argmaxFirst (baseSchedule total_frame_count text_array)) 0
        + unused_frames total_frame_count text_array), ?_, ?_, ?_⟩
  · simp only [computeSchedule, if_neg hne]
  · intro v hv
    rcases List.mem_or_eq_of_mem_set hv with h | h
    · exact hbase_nonneg v h
    · subst h
      have hmem : (baseSchedule total_frame_count text_array).getD
          (argmaxFirst (baseSchedule total_frame_count text_array)) 0
          ∈ baseSchedule total_frame_count text_array := by
        rw [List.getD_eq_getElem _ _ hk]
        exact List.getElem_mem hk
      have := hbase_nonneg _ hmem
      omega
  · rw [sum_set_getD_add _ _ _ hk, sum_baseSchedule]
    simp only [unused_frames]
    ring

/-- C1 witness: concrete instance with 100 frames and two captions. -/
theorem C1_witness :
    (0 : Int) ≤ 100 ∧ 0 < total_length ["cat", "elephant"] ∧
      ∃ sched, computeSchedule 100 ["cat", "elephant"] = some sched ∧
        (∀ v ∈ sched, 0 ≤ v) ∧ sched.sum = 100 :=
  ⟨by decide, by decide, C1_schedule_sum_invariant 100 ["cat", "elephant"]
    (by decide) (by decide)⟩

/-- C4: the unused frames are added entirely to the entry of the base
schedule holding the current maximum, ties broken by the first-encountered
maximum in caption order; and on 10 frames with captions ab, ab the result is
the schedule 5, 5. -/
theorem C4_unused_to_first_max (tf : Int) (ta : List String)
    (hL : total_length ta ≠ 0) :
    (∃ k, computeSchedule tf ta =
        some ((baseSchedule tf ta).set k
          ((baseSchedule tf ta).getD k 0 + unused_frames tf ta)) ∧
      k < (baseSchedule tf ta).length ∧
      (∀ i, i < (baseSchedule tf ta).length →
        (baseSchedule tf ta).getD i 0 ≤ (baseSchedule tf ta).getD k 0) ∧
      (∀ i, i < k → (baseSchedule tf ta).getD i 0 < (baseSchedule tf ta).getD k 0)) ∧
      computeSchedule 10 ["ab", "ab"] = some [5, 5] := by
  have hta : ta ≠ [] := by
    intro h
    rw [h] at hL
    simp [total_length] at hL
  have hbne : baseSchedule tf ta ≠ [] := by
    intro h
    have := length_baseSchedule tf ta
    rw [h] at this
    simp at this
    exact hta (List.length_eq_zero.mp this.symm)
  obtain ⟨hk, hmax, hfirst⟩ := argmaxFirst_spec _ hbne
  refine ⟨⟨argmaxFirst (baseSchedule tf ta), ?_, hk, hmax, hfirst⟩, by rfl⟩
  simp only [computeSchedule, if_neg hL]

/-- C4 witness: concrete instance with 10 frames and captions ab, ab. -/
theorem C4_witness :
    total_length ["ab", "ab"] ≠ 0 ∧
      ((∃ k, computeSchedule 10 ["ab", "ab"] =
          some ((baseSchedule 10 ["ab", "ab"]).set k
            ((baseSchedule 10 ["ab", "ab"]).getD k 0 + unused_frames 10 ["ab", "ab"])) ∧
        k < (baseSchedule 10 ["ab", "ab"]).length ∧
        (∀ i, i < (baseSchedule 10 ["ab", "ab"]).length →
          (baseSchedule 10 ["ab", "ab"]).getD i 0
            ≤ (baseSchedule 10 ["ab", "ab"]).getD k 0) ∧
        (∀ i, i < k → (baseSchedule 10 ["ab", "ab"]).getD i 0
            < (baseSchedule 10 ["ab", "ab"]).getD k 0)) ∧
        computeSchedule 10 ["ab", "ab"] = some [5, 5]) :=
  ⟨by decide, C4_unused_to_first_max 10 ["ab", "ab"] (by decide)⟩

/-- C6: whenever the total caption character length is zero, the schedule
computation fails with the division error (modelled as none) instead of
returning a schedule, and so does the state-level method. -/
theorem C6_zero_length_division_error (s : VPState)
    (h : total_length s.text_array = 0) :
    calculate_screen_display_time s = none ∧
      computeSchedule s.total_frame_count s.text_array = none := by
  have hc : computeSchedule s.total_frame_count s.text_array = none := by
    simp only [computeSchedule, if_pos h]
  exact ⟨by simp [calculate_screen_display_time, hc], hc⟩

/-- C6 witness: a state whose single caption is the empty string. -/
theorem C6_witness :
    total_length (VPState.text_array
        ⟨⟨"in.mp4", "out.mp4", 1080, 1920⟩, [""], 5, [], 0, 0⟩) = 0 ∧
      calculate_screen_display_time
        ⟨⟨"in.mp4", "out.mp4", 1080, 1920⟩, [""], 5, [], 0, 0⟩ = none ∧
      computeSchedule 5 [""] = none :=
  ⟨by decide, C6_zero_length_division_error
    ⟨⟨"in.mp4", "out.mp4", 1080, 1920⟩, [""], 5, [], 0, 0⟩ (by decide)⟩

/-- The frame model used for concrete evaluations of the per-frame step: a
frame is a natural number and the annotation routine increments it, so an
annotated frame is distinguishable from a pass-through frame. -/
def markFrame : Nat → String → Int → Int → Nat := fun f _ _ _ => f + 1

/-- A concrete processor state over captions ["a"] and one total frame, with
the given schedule list, display counter and display index. -/
def exampleState (timer : List Int) (counter : Int) (index : Nat) : VPState :=
  ⟨⟨"input.mp4", "output.mp4", 1080, 1920⟩, ["a"], 1, timer, counter, index⟩

/-- C2 (code bug): running the code's own schedule for a one-caption,
one-frame video, the first call annotates the frame, the second call passes
the frame through and advances the caption index to the caption count 1, and
the third call — contrary to the claim that all further frames are returned
unmodified — hits a KeyError (modelled as none) on the schedule lookup
`text_display_timer_on_screen[display_index]`, because the schedule dict has
keys 0..0 only. -/
theorem C2_terminal_state_raises :
    computeSchedule 1 ["a"] = some [1] ∧
    display_text_on_screen markFrame (exampleState [1] 0 0) 0 =
      some (exampleState [1] 1 0, 1) ∧
    display_text_on_screen markFrame (exampleState [1] 1 0) 0 =
      some (exampleState [1] 0 1, 0) ∧
    display_text_on_screen markFrame (exampleState [1] 0 1) 0 = none :=
  ⟨rfl, rfl, rfl, rfl⟩

/-- C3 counterexample: with one total frame and captions a, bc (so the total
length exceeds the frame count and the base repeat is zero), every base entry
is zero, the single unused frame goes to the first entry, and the longer
caption bc ends with strictly less screen time than the shorter caption a. -/
theorem C3_counterexample :
    ("a" : String).length < ("bc" : String).length ∧
      computeSchedule 1 ["a", "bc"] = some [1, 0] ∧
      ¬ (([1, 0] : List Int).getD 0 0 ≤ ([1, 0] : List Int).getD 1 0) := by
  refine ⟨by decide, rfl, by decide⟩

/-- C3 amended: the proportionality holds whenever the total frame count is
at least the total caption length (so the base repeat is at least one): if
caption i is strictly longer than caption j, the schedule grants caption i at
least as many frames as caption j. -/
theorem C3_amended_proportionality (tf : Int) (ta : List String) (i j : Nat)
    (hi : i < ta.length) (hj : j < ta.length)
    (hlen : (ta.getD j "").length < (ta.getD i "").length)
    (hL : 0 < total_length ta) (htf : total_length ta ≤ tf) :
    ∃ sched, computeSchedule tf ta = some sched ∧
      sched.getD j 0 ≤ sched.getD i 0 := by
  have hne : total_length ta ≠ 0 := ne_of_gt hL
  have htf0 : 0 ≤ tf := le_trans (le_of_lt hL) htf
  have hq1 : 1 ≤ quote_display_count tf ta := by
    unfold quote_display_count
    rw [Int.fdiv_eq_ediv _ (le_of_lt hL), Int.le_ediv_iff_mul_le hL]
    linarith
  have hu0 : 0 ≤ unused_frames tf ta := unused_frames_nonneg _ _ htf0 hL
  have hbl := length_baseSchedule tf ta
  have hbne : baseSchedule tf ta ≠ [] := by
    intro h
    rw [h] at hbl
    exact text_array_ne_nil_of_total_length_pos ta hL (List.length_eq_zero.mp hbl.symm)
  obtain ⟨hk, hmax, -⟩ := argmaxFirst_spec _ hbne
  have hbi := getD_baseSchedule tf ta i hi
  have hbj := getD_baseSchedule tf ta j hj
  have hij : (baseSchedule tf ta).getD j 0 < (baseSchedule tf ta).getD i 0 := by
    rw [hbi, hbj]
    have hcast : ((ta.getD j "").length : Int) < ((ta.getD i "").length : Int) := by
      exact_mod_cast hlen
    nlinarith
  have hkj : argmaxFirst (baseSchedule tf ta) ≠ j := by
    intro h
    have hle := hmax i (by omega)
    rw [h] at hle
    omega
  refine ⟨(baseSchedule tf ta).set (argmaxFirst (baseSchedule tf ta))
      ((baseSchedule tf ta).getD (argmaxFirst (baseSchedule tf ta)) 0
        + unused_frames tf ta),
    by simp only [computeSchedule, if_neg hne], ?_⟩
  rw [getD_set_ne _ _ _ _ hkj]
  by_cases hik : argmaxFirst (baseSchedule tf ta) = i
  · rw [hik, getD_set_self _ _ _ (by omega)]
    omega
  · rw [getD_set_ne _ _ _ _ hik]
    omega

/-- C3 witness: 100 frames, captions cat and elephant, elephant longer. -/
theorem C3_witness :
    (1 : Nat) < (["cat", "elephant"] : List String).length ∧
      ((["cat", "elephant"] : List String).getD 0 "").length
        < ((["cat", "elephant"] : List String).getD 1 "").length ∧
      0 < total_length ["cat", "elephant"] ∧
      total_length ["cat", "elephant"] ≤ 100 ∧
      ∃ sched, computeSchedule 100 ["cat", "elephant"] = some sched ∧
        sched.getD 0 0 ≤ sched.getD 1 0 :=
  ⟨by decide, by decide, by decide, by decide,
    C3_amended_proportionality 100 ["cat", "elephant"] 1 0 (by decide) (by decide)
      (by decide) (by decide) (by decide)⟩

/-- C7 counterexample: for a measured line width 13 on a frame of width 10,
the code computes int(-3 / 2) = -1 (truncation toward zero), while the
claimed floor formula gives -2. -/
theorem C7_counterexample :
    x_position 10 13 = -1 ∧ Int.fdiv (10 - 13) 2 = -2 := by
  constructor
  · rw [x_position, pyint, if_neg (by norm_num),
      show (((10 - 13 : Int) : ℚ) / 2) = -(3 / 2) by norm_num, Int.ceil_neg]
    norm_num
  · decide

/-- C7 amended: for every line whose measured width does not exceed the frame
width, the horizontal draw position equals the floor of
(frameWidth - lineWidth) / 2; for wider lines the code truncates toward zero
instead of flooring. -/
theorem C7_amended_centering (image_width text_width : Int)
    (h : text_width ≤ image_width) :
    x_position image_width text_width = Int.fdiv (image_width - text_width) 2 := by
  unfold x_position
  exact pyint_nonneg_div_two _ (by omega)

/-- C7 witness: a line of width 4 on a frame of width 10 is drawn at x = 3. -/
theorem C7_witness :
    (4 : Int) ≤ 10 ∧ x_position 10 4 = Int.fdiv (10 - 4) 2 :=
  ⟨by decide, C7_amended_centering 10 4 (by decide)⟩

/-- C8 counterexample: frame height 100, a single line of measured height 11,
line spacing 20. The code wraps only the first division in int(), so the
start is 55 - 31/2 = 39.5 and the drawn coordinate is 39, while the claimed
all-floor formula gives 55 - 15 = 40. -/
theorem C8_counterexample :
    y_position_start 100 [11] 20 = 79 / 2 ∧
      y_draw_start 100 [11] 20 = 39 ∧
      Int.fdiv (100 + ([11] : List Int).sum) 2
        - Int.fdiv ((([11] : List Int).getD 0 0 + 20)
          * (([11] : List Int).length : Int)) 2 = 40 := by
  have h1 : y_position_start 100 [11] 20 = 79 / 2 := by
    rw [y_position_start]
    rw [show (((100 : Int) + ([11] : List Int).sum : Int) : ℚ) / 2
      = ((111 : Int) : ℚ) / 2 by norm_num]
    rw [show pyint (((111 : Int) : ℚ) / 2) = 55 by norm_num [pyint]]
    norm_num
  refine ⟨h1, ?_, by decide⟩
  rw [y_draw_start, h1]
  norm_num [pyint]

/-- C8 amended: the first division is floored but the second is an exact
float division whose result is truncated toward zero at drawing time; the
claimed all-floor formula for the starting vertical position is correct
exactly when (firstLineHeight + lineSpacing) * lineCount is even. -/
theorem C8_amended_y_start (image_height : Int) (lineHeights : List Int)
    (line_spacing : Int) (hH : 0 ≤ image_height)
    (hall : ∀ h ∈ lineHeights, 0 ≤ h)
    (heven : 2 ∣ (lineHeights.getD 0 0 + line_spacing) * (lineHeights.length : Int)) :
    y_draw_start image_height lineHeights line_spacing =
      Int.fdiv (image_height + lineHeights.sum) 2
        - Int.fdiv ((lineHeights.getD 0 0 + line_spacing)
          * (lineHeights.length : Int)) 2 := by
  obtain ⟨c, hc⟩ := heven
  have hsum : 0 ≤ lineHeights.sum := List.sum_nonneg hall
  have hA : pyint (((image_height + lineHeights.sum : Int) : ℚ) / 2)
      = Int.fdiv (image_height + lineHeights.sum) 2 :=
    pyint_nonneg_div_two _ (by omega)
  rw [y_draw_start, y_position_start, hA, hc]
  have hq : ((Int.fdiv (image_height + lineHeights.sum) 2 : Int) : ℚ)
      - ((2 * c : Int) : ℚ) / 2
      = ((Int.fdiv (image_height + lineHeights.sum) 2 - c : Int) : ℚ) := by
    push_cast
    ring
  rw [hq, pyint_intCast, Int.mul_fdiv_cancel_left c (by norm_num)]

/-- C8 witness: frame height 100, one line of height 10, spacing 20: the
drawn start is 55 - 15 = 40 and the formula applies since 30 is even. -/
theorem C8_witness :
    (0 : Int) ≤ 100 ∧ (∀ h ∈ ([10] : List Int), 0 ≤ h) ∧
      (2 : Int) ∣ (([10] : List Int).getD 0 0 + 20) * (([10] : List Int).length : Int) ∧
      y_draw_start 100 [10] 20 =
        Int.fdiv (100 + ([10] : List Int).sum) 2
          - Int.fdiv ((([10] : List Int).getD 0 0 + 20)
            * (([10] : List Int).length : Int)) 2 :=
  ⟨by decide, by decide, by decide,
    C8_amended_y_start 100 [10] 20 (by decide) (by decide) (by decide)⟩

/-- C9: on success, calculate_screen_display_time writes only the
text_display_timer_on_screen field, every other field is unchanged, and the
stored schedule is a function of total_frame_count and text_array alone
(namely computeSchedule of those two fields). -/
theorem C9_calculate_frame_effect (s s' : VPState)
    (h : calculate_screen_display_time s = some s') :
    s'.video_properties = s.video_properties ∧
      s'.text_array = s.text_array ∧
      s'.total_frame_count = s.total_frame_count ∧
      s'.display_counter = s.display_counter ∧
      s'.display_index = s.display_index ∧
      computeSchedule s.total_frame_count s.text_array =
        some s'.text_display_timer_on_screen := by
  cases hc : computeSchedule s.total_frame_count s.text_array with
  | none =>
    rw [calculate_screen_display_time, hc] at h
    simp at h
  | some t =>
    rw [calculate_screen_display_time, hc, Option.map_some'] at h
    injection h with h
    subst h
    exact ⟨rfl, rfl, rfl, rfl, rfl, rfl⟩

/-- The pre-call state of the C9 witness. -/
def c9Before : VPState := ⟨⟨"in.mp4", "out.mp4", 10, 20⟩, ["xy"], 7, [], 3, 2⟩

/-- The post-call state of the C9 witness: only the schedule field changed. -/
def c9After : VPState := ⟨⟨"in.mp4", "out.mp4", 10, 20⟩, ["xy"], 7, [7], 3, 2⟩

/-- C9 witness: a concrete state with 7 frames and the caption xy. -/
theorem C9_witness :
    c9After.video_properties = c9Before.video_properties ∧
      c9After.text_array = c9Before.text_array ∧
      c9After.total_frame_count = c9Before.total_frame_count ∧
      c9After.display_counter = c9Before.display_counter ∧
      c9After.display_index = c9Before.display_index ∧
      computeSchedule c9Before.total_frame_count c9Before.text_array =
        some c9After.text_display_timer_on_screen :=
  C9_calculate_frame_effect c9Before c9After (by decide)

/-- C10: from any state whose caption index is in range, whose schedule list
covers the captions with nonnegative values, and whose counter c satisfies
0 ≤ c ≤ schedule[index], one call to display_text_on_screen succeeds and
either annotates the frame and increments the counter by exactly one leaving
the index unchanged, or passes the frame through unmodified, resets the
counter to 0 and increments the index by exactly one; in either case the
index stays at most the caption count and the counter invariant
0 ≤ c ≤ schedule[index] is re-established while the index is in range. -/
theorem C10_cursor_step_invariant {Frame : Type}
    (add_custom_text : Frame → String → Int → Int → Frame)
    (s : VPState) (frame : Frame)
    (hidx : s.display_index < s.text_array.length)
    (hlen : s.text_display_timer_on_screen.length = s.text_array.length)
    (hnn : ∀ v ∈ s.text_display_timer_on_screen, 0 ≤ v)
    (hc0 : 0 ≤ s.display_counter)
    (hct : s.display_counter ≤
      s.text_display_timer_on_screen.getD s.display_index 0) :
    ∃ s' frame',
      display_text_on_screen add_custom_text s frame = some (s', frame') ∧
      ((s'.display_counter = s.display_counter + 1 ∧
          s'.display_index = s.display_index ∧
          frame' = add_custom_text frame (s.text_array.getD s.display_index "")
            s.video_properties.width s.video_properties.height) ∨
        (s'.display_counter = 0 ∧ s'.display_index = s.display_index + 1 ∧
          frame' = frame)) ∧
      s'.display_index ≤ s.text_array.length ∧
      (s'.display_index < s.text_array.length →
        0 ≤ s'.display_counter ∧
        s'.display_counter ≤
          s.text_display_timer_on_screen.getD s'.display_index 0) := by
  have hit : s.display_index < s.text_display_timer_on_screen.length := by omega
  have hsome : s.text_display_timer_on_screen[s.display_index]? =
      some (s.text_display_timer_on_screen.getD s.display_index 0) := by
    rw [List.getElem?_eq_getElem hit, List.getD_eq_getElem _ _ hit]
  by_cases hlt : s.display_counter <
      s.text_display_timer_on_screen.getD s.display_index 0
  · have htxt : s.text_array[s.display_index]? =
        some (s.text_array.getD s.display_index "") := by
      rw [List.getElem?_eq_getElem hidx, List.getD_eq_getElem _ _ hidx]
    refine ⟨{ s with display_counter := s.display_counter + 1 },
      add_custom_text frame (s.text_array.getD s.display_index "")
        s.video_properties.width s.video_properties.height,
      ?_, Or.inl ⟨rfl, rfl, rfl⟩, le_of_lt hidx, ?_⟩
    · rw [display_text_on_screen, hsome, Option.some_bind, if_pos hlt, htxt,
        Option.map_some']
    · intro _
      constructor
      · show (0 : Int) ≤ s.display_counter + 1
        omega
      · show s.display_counter + 1 ≤
          s.text_display_timer_on_screen.getD s.display_index 0
        omega
  · refine ⟨{ s with
        display_counter := 0
        display_index := s.display_index + 1 }, frame,
      ?_, Or.inr ⟨rfl, rfl, rfl⟩, ?_, ?_⟩
    · rw [display_text_on_screen, hsome, Option.some_bind, if_neg hlt,
        if_pos hidx]
    · show s.display_index + 1 ≤ s.text_array.length
      omega
    · intro h'
      have h'' : s.display_index + 1 < s.text_array.length := h'
      have h2 : s.display_index + 1 < s.text_display_timer_on_screen.length := by
        omega
      have hmem : s.text_display_timer_on_screen.getD (s.display_index + 1) 0
          ∈ s.text_display_timer_on_screen := by
        rw [List.getD_eq_getElem _ _ h2]
        exact List.getElem_mem h2
      exact ⟨le_refl 0, hnn _ hmem⟩

/-- C10 witness: two captions a, b with schedule 2, 3, counter 1, index 0. -/
theorem C10_witness :
    (0 : Nat) < (["a", "b"] : List String).length ∧
      ∃ s' frame',
        display_text_on_screen markFrame
          ⟨⟨"in.mp4", "out.mp4", 8, 9⟩, ["a", "b"], 5, [2, 3], 1, 0⟩ 0 =
          some (s', frame') ∧
        ((s'.display_counter = 1 + 1 ∧ s'.display_index = 0 ∧
            frame' = markFrame 0 ((["a", "b"] : List String).getD 0 "") 8 9) ∨
          (s'.display_counter = 0 ∧ s'.display_index = 0 + 1 ∧ frame' = 0)) ∧
        s'.display_index ≤ (["a", "b"] : List String).length ∧
        (s'.display_index < (["a", "b"] : List String).length →
          0 ≤ s'.display_counter ∧
          s'.display_counter ≤ ([2, 3] : List Int).getD s'.display_index 0) :=
  ⟨by decide, C10_cursor_step_invariant markFrame
    ⟨⟨"in.mp4", "out.mp4", 8, 9⟩, ["a", "b"], 5, [2, 3], 1, 0⟩ 0
    (by decide) (by decide) (by decide) (by decide) (by decide)⟩

end VideoProcessor
